import Mathlib

/-!
Shallow embedding of `qiling/debugger/qdb/frontend.py` — the qdb debugger's
context renderer (memory examiner, section framing, register/stack/code
context printers) — together with theorems settling the specification
claims about it.

Modelling conventions:
* `ql.mem.read(addr, size)` is modelled by a byte-addressed partial memory
  `Mem := Nat → Option Nat`; a read of `size` bytes succeeds iff every byte
  in the range is mapped (an unmapped byte corresponds to the engine
  raising a memory fault).
* Python exceptions are modelled with `Except Unit` / `Option`; a printing
  computation that can raise midway is modelled as
  `List String × Option Unit` (the lines printed so far, and whether an
  exception escaped).
* `ql.unpack16/32/64 / ql.unpack` (engine-provided, external to this file's
  source) are modelled as little-endian unpacking of the byte list.
* Terminal width (`get_terminal_size`, external `stty`) is passed as an
  explicit parameter.
-/

/-- Byte-addressed memory of the emulated process: `some b` when the byte at
the address is mapped, `none` when reading it would fault. -/
abbrev Mem := Nat → Option Nat

/-- Read `n` consecutive bytes starting at address `a`; fails iff any byte
in the range is unmapped.  This models `ql.mem.read(a, n)`. -/
def readFrom (m : Mem) : Nat → Nat → Option (List Nat)
  | _, 0 => some []
  | a, Nat.succ k =>
    match m a, readFrom m (a + 1) k with
    | some b, some bs => some (b :: bs)
    | _, _ => none

/-- `ql.mem.read(addr, size)`. -/
def memReadBytes (m : Mem) (addr size : Nat) : Option (List Nat) :=
  readFrom m addr size

/-- A fully mapped all-zero memory, used for concrete scenarios. -/
def zmem : Mem := fun _ => some 0

/-- Embeds `_try_read` (frontend.py lines 63–69): a best-effort read that
converts a memory fault into `None`.  In the byte-level model this is the
same partial function as `memReadBytes`; the difference to a direct
`ql.mem.read` call is in how the *caller* treats `none` (absent value vs
propagated exception). -/
def try_read (m : Mem) (address size : Nat) : Option (List Nat) :=
  memReadBytes m address size

/-- Little-endian unsigned unpack of a byte list; models the engine's
`ql.unpack16 / ql.unpack32 / ql.unpack64 / ql.unpack` family (external
interface `unpackUInt`). -/
def unpackLE : List Nat → Nat
  | [] => 0
  | b :: bs => b + 256 * unpackLE bs

/-- Left-pad a digit string with `'0'` up to width `w` (Python's
`{:0w...}` minimum-width zero padding: longer strings are kept intact). -/
def padZero (w : Nat) (s : List Char) : List Char :=
  List.replicate (w - s.length) '0' ++ s

/-- Python `"{:b}".format` / `"{:o}"` / `"{:d}"` / `"{:x}"` digits (no
padding): digits of `n` in base `b`, lowercase. -/
def baseStr (b n : Nat) : String :=
  String.mk (Nat.toDigits b n)

/-- Base-`b` rendering of `n` zero-padded to a minimum width `w`. -/
def baseStrPad (b w n : Nat) : String :=
  String.mk (padZero w (Nat.toDigits b n))

/-- Python `"{:x}".format n`. -/
def hexStr (n : Nat) : String := baseStr 16 n

/-- Python `"{:0wx}".format n`. -/
def hexPad (w n : Nat) : String := baseStrPad 16 w n

/-- Python `str.ljust(w)`: pad on the right with spaces to width `w`. -/
def ljust (s : String) (w : Nat) : String :=
  s ++ String.mk (List.replicate (w - s.length) ' ')

/-- The header line printed by `context_printer` (line 76):
`print(field_name, ruler * (_width - len(field_name) - 1))` — the field
name, one separating space, and the rule sized to the remaining width. -/
def hrule (width : Nat) (field_name : String) (ruler : Char) : String :=
  field_name ++ " " ++ String.mk (List.replicate (width - field_name.length - 1) ruler)

/-- The closing rule line of `context_printer` (line 78): the rule
character repeated `width` times. -/
def crule (width : Nat) (ruler : Char) : String :=
  String.mk (List.replicate width ruler)

/-- Embeds `context_printer` (frontend.py lines 73–78).  It is a
`@contextmanager` generator whose `yield` is *not* wrapped in
`try/finally`: when the body raises, the exception is thrown into the
generator at the yield point and propagates, so the `print(ruler * _width)`
after the `yield` never runs.  The body is `(lines printed, optional
escaped exception)`; the result is the section's total printed output and
the exception that escapes the `with` block. -/
def context_printer (width : Nat) (field_name : String) (ruler : Char)
    (body : List String × Option Unit) : List String × Option Unit :=
  match body with
  | (out, none) => (hrule width field_name ruler :: (out ++ [crule width ruler]), none)
  | (out, some e) => (hrule width field_name ruler :: out, some e)

/-- C1, counterexample: `context_printer` with a failing body (terminal
width 80, title `[Registers]`, rule `'='`) propagates the failure but its
printed output contains *no* closing rule line `'='*80` — the
`@contextmanager` has no `try/finally`, so the post-`yield` print is
skipped on the error exit path, contrary to the claim that the closing
rule is printed on every exit path. -/
theorem c1_counterexample :
    (context_printer 80 "[Registers]" '=' ([], some ())).2 = some () ∧
    crule 80 '=' ∉ (context_printer 80 "[Registers]" '=' ([], some ())).1 := by
  constructor
  · rfl
  · decide

/-- C1 (amended): the closing rule of `context_printer` is printed only on
the normal exit path.  When the body completes normally, the closing rule
(`ruler` repeated `width` times) is the last printed line; when the body
raises, the failure reaches the caller and no closing rule is printed (the
output is exactly the header followed by the body's partial output). -/
theorem c1_amended (width : Nat) (field_name : String) (ruler : Char) (out : List String)
    (h1 : crule width ruler ∉ out)
    (h2 : hrule width field_name ruler ≠ crule width ruler) :
    (context_printer width field_name ruler (out, some ())).2 = some () ∧
    (context_printer width field_name ruler (out, some ())).1
      = hrule width field_name ruler :: out ∧
    crule width ruler ∉ (context_printer width field_name ruler (out, some ())).1 ∧
    (context_printer width field_name ruler (out, none)).1.getLast?
      = some (crule width ruler) := by
  refine ⟨rfl, rfl, ?_, ?_⟩
  · simp only [context_printer, List.mem_cons]
    push_neg
    exact ⟨fun hc => h2 hc.symm, h1⟩
  · show (hrule width field_name ruler :: (out ++ [crule width ruler])).getLast? = _
    rw [show hrule width field_name ruler :: (out ++ [crule width ruler])
          = (hrule width field_name ruler :: out) ++ [crule width ruler] by simp,
        List.getLast?_concat]

/-- Witness for `c1_amended` at width 10, title `[X]`, rule `'='`, empty
body output. -/
theorem c1_amended_witness :
    (context_printer 10 "[X]" '=' ([], some ())).2 = some () ∧
    (context_printer 10 "[X]" '=' ([], some ())).1 = hrule 10 "[X]" '=' :: [] ∧
    crule 10 '=' ∉ (context_printer 10 "[X]" '=' ([], some ())).1 ∧
    (context_printer 10 "[X]" '=' ([], none)).1.getLast? = some (crule 10 '=') :=
  c1_amended 10 "[X]" '=' [] (by decide) (by decide)

/-- Embeds the `unpack` helper inside `examine_mem` (lines 17–23):
dispatch on element size; size 1 takes the first byte (`x[0]`, an
IndexError on empty input); sizes 2/4/8 use the engine's unpackers
(modelled little-endian); any other size is a dictionary miss
(`.get(sz)` yields `None`, and calling it raises). -/
def unpack_elem (sz : Nat) (bs : List Nat) : Except Unit Nat :=
  match sz with
  | 1 => match bs with
         | [] => .error ()
         | b :: _ => .ok b
  | 2 => .ok (unpackLE bs)
  | 4 => .ok (unpackLE bs)
  | 8 => .ok (unpackLE bs)
  | _ => .error ()

/-- Python `str.lower()` for the one-character format-kind strings:
character-wise lowercasing. -/
def lowerStr (s : String) : String :=
  String.mk (s.data.map Char.toLower)

/-- Python `str.replace(src, tgt)` for one-character pattern and
replacement: character-wise substitution. -/
def replaceChar (s : String) (src tgt : Char) : String :=
  String.mk (s.data.map fun c => if c = src then tgt else c)

/-- Numeric base of a Python integer format conversion character; `none`
models a ValueError for an unsupported conversion. -/
def baseOf : String → Option Nat
  | "x" => some 16
  | "o" => some 8
  | "b" => some 2
  | "d" => some 10
  | _ => none

/-- Embeds the per-element formatting of `examine_mem`'s data branch
(lines 48–52): the `0x` prefix for hex/address kinds, zero padding to
`2*sz` digits for hex/address/binary(`"t"`) kinds, then the reassignment
`ft = ft.lower() if ft in ("x","o","b","d") else
ft.lower().replace("t","b").replace("a","x")` — the *new* `ft` is the
conversion character actually used, and it is returned so the mutation
persists into later elements and rows.  The trailing `"\t"` of the
element's `print(..., end="")` is part of the element string. -/
def fmt_elem (ft : String) (sz : Nat) (data : Nat) : Except Unit (String × String) :=
  let pfx := if ft = "x" ∨ ft = "a" then "0x" else ""
  let pad := if ft = "x" ∨ ft = "a" ∨ ft = "t" then some (sz * 2) else none
  let ft2 := if ft = "x" ∨ ft = "o" ∨ ft = "b" ∨ ft = "d" then ft
             else replaceChar (replaceChar (lowerStr ft) 't' 'b') 'a' 'x'
  match baseOf ft2 with
  | none => .error ()
  | some b =>
    let digits := match pad with
      | some w => baseStrPad b w data
      | none => baseStr b data
    .ok (pfx ++ digits ++ "\t", ft2)

/-- Format one row's chunk of elements, unpacking each byte sequence and
threading the mutated `ft` (lines 46–52). -/
def render_elems (sz : Nat) : String → List (List Nat) → Except Unit (List String × String)
  | ft, [] => .ok ([], ft)
  | ft, bs :: rest => do
    let data ← unpack_elem sz bs
    let (s, ft2) ← fmt_elem ft sz data
    let (ss, ft3) ← render_elems sz ft2 rest
    .ok (s :: ss, ft3)

/-- One printed row of `examine_mem`'s data branch: the row header
(line 43) paired with the formatted element strings. -/
abbrev Row := String × List String

/-- Embeds the row loop of `examine_mem` (lines 41–54): `n` rows remain,
`line` is the current row index, `ft` the (possibly already mutated)
format kind.  Row `line` takes elements `mem_read[line*4 : line*4+4]` and
is headed by `"0x{addr+line*sz*4:x}:\t"`. -/
def examine_rows (addr sz : Nat) (mem_read : List (List Nat)) :
    Nat → Nat → String → Except Unit (List Row)
  | 0, _, _ => .ok []
  | Nat.succ n, line, ft => do
    let header := "0x" ++ hexStr (addr + line * sz * 4) ++ ":\t"
    let (ss, ft2) ← render_elems sz ft ((mem_read.drop (line * 4)).take 4)
    let rest ← examine_rows addr sz mem_read n (line + 1) ft2
    .ok ((header, ss) :: rest)

/-- Embeds the up-front element reads of `examine_mem` (line 39):
`mem_read = [ql.mem.read(addr+(offset*sz), sz) for offset in range(ct)]`.
Every element is read with a *direct* `ql.mem.read` (not `_try_read`):
one unmapped element raises out of the comprehension, aborting the whole
call before anything is printed. -/
def read_elems (m : Mem) (addr sz : Nat) : Nat → Nat → Except Unit (List (List Nat))
  | _, 0 => .ok []
  | off, Nat.succ n => do
    let bs ← match memReadBytes m (addr + off * sz) sz with
             | some bs => Except.ok bs
             | none => Except.error ()
    let rest ← read_elems m addr sz (off + 1) n
    .ok (bs :: rest)

/-- Embeds the non-instruction (data) branch of `examine_mem`
(lines 36–54): row count `1 if ct <= 4 else ceil(ct/4)`, up-front reads,
then the row loop.  The result is the list of printed rows, or the
exception escaping the call. -/
def examine_mem_data (m : Mem) (addr : Nat) (ft : String) (sz ct : Nat) :
    Except Unit (List Row) := do
  let lines := if ct ≤ 4 then 1 else (ct + 3) / 4
  let mem_read ← read_elems m addr sz 0 ct
  examine_rows addr sz mem_read lines 0 ft

/-- A decoded instruction, as produced by the external disassembler. -/
structure Insn where
  address : Nat
  mnemonic : String
  op_str : String
deriving DecidableEq

/-- Embeds the instruction branch of `examine_mem` (lines 27–34): step a
fixed 4 bytes per iteration for `ct` iterations, printing
`"0x{addr:x}: {mnemonic}\t{op_str}"` per decoded line and silently
skipping offsets where `disasm` yields nothing.  `disasmAt` models
`disasm(ql, offset)` from qdb's utils (external to this source file). -/
def examine_mem_insn (disasmAt : Nat → Option Insn) (addr ct : Nat) : List String :=
  (List.range ct).filterMap fun i =>
    (disasmAt (addr + i * 4)).map fun line =>
      "0x" ++ hexStr line.address ++ ": " ++ line.mnemonic ++ "\t" ++ line.op_str

/-- Memory for the C2 counterexample: 16 bytes mapped at 0 except bytes
8–11 (element 2 of a four-element, 4-byte examine) which are unmapped. -/
def c2mem : Mem := fun a =>
  if a < 8 then some 0 else if a < 12 then none else if a < 16 then some 0 else none

/-- C2, counterexample: in `examine_mem`'s data branch the elements are
read with direct `ql.mem.read` calls, not through the best-effort probe.
With elements 0, 1, 3 mapped and element 2 unmapped, the whole `examine`
call fails (`.error`) and *no* row is printed — contrary to the claim
that the failed element is merely omitted from its row while the rest
still prints. -/
theorem c2_counterexample :
    examine_mem_data c2mem 0 "x" 4 4 = .error () ∧
    try_read c2mem 8 4 = none ∧
    memReadBytes c2mem 0 4 = some [0, 0, 0, 0] ∧
    memReadBytes c2mem 12 4 = some [0, 0, 0, 0] := by
  refine ⟨rfl, rfl, rfl, rfl⟩

/-- If any element in range fails its read, the up-front read
comprehension of `examine_mem` raises. -/
theorem read_elems_error (m : Mem) (addr sz : Nat) :
    ∀ (n off : Nat), (∃ j, j < n ∧ memReadBytes m (addr + (off + j) * sz) sz = none) →
    read_elems m addr sz off n = .error () := by
  intro n
  induction n with
  | zero => intro off ⟨j, hj, _⟩; omega
  | succ k ih =>
    intro off ⟨j, hj, hfail⟩
    rcases h0 : memReadBytes m (addr + off * sz) sz with _ | bs
    · simp only [read_elems, h0]
      rfl
    · have hj0 : j ≠ 0 := by
        intro h
        rw [h, Nat.add_zero] at hfail
        rw [h0] at hfail
        exact Option.noConfusion hfail
      obtain ⟨j', rfl⟩ := Nat.exists_eq_succ_of_ne_zero hj0
      have htail : read_elems m addr sz (off + 1) k = .error () := by
        refine ih (off + 1) ⟨j', by omega, ?_⟩
        have : off + 1 + j' = off + (j' + 1) := by omega
        rw [this]
        exact hfail
      simp only [read_elems, h0, htail]
      rfl

/-- C2 (amended): in `examine_mem`'s data branch every element is read
with a *direct* `ql.mem.read` call (line 39), not through the best-effort
probe `_try_read`.  If any single element of the range is unmapped, the
read raises out of the list comprehension and the whole `examine` call
fails with nothing printed — no row is rendered at all. -/
theorem c2_amended (m : Mem) (addr : Nat) (ft : String) (sz ct i : Nat)
    (hi : i < ct) (hfail : memReadBytes m (addr + i * sz) sz = none) :
    examine_mem_data m addr ft sz ct = .error () := by
  have h : read_elems m addr sz 0 ct = .error () := by
    refine read_elems_error m addr sz ct 0 ⟨i, hi, ?_⟩
    rw [Nat.zero_add]
    exact hfail
  simp only [examine_mem_data, h]
  rfl

/-- Witness for `c2_amended`: element 2 of a 4-element, 4-byte hex examine
at address 0 is unmapped in `c2mem`, so the call fails. -/
theorem c2_amended_witness :
    examine_mem_data c2mem 0 "x" 4 4 = .error () :=
  c2_amended c2mem 0 "x" 4 4 2 (by decide) (by rfl)

/-- C6: `examine` in data mode with format kind hex, element size 4 and
count 4 over zeroed memory prints exactly one row of four `0x00000000`
values (the `0x` prefix plus `2*elementSize = 8` zero-padded hex digits);
with count 5 it prints exactly two rows of 4 and 1 elements, per
`lines = 1 if ct <= 4 else ceil(ct/4)`. -/
theorem c6_examine_hex_rows (addr : Nat) :
    examine_mem_data zmem addr "x" 4 4
      = .ok [("0x" ++ hexStr addr ++ ":\t",
              ["0x00000000\t", "0x00000000\t", "0x00000000\t", "0x00000000\t"])] ∧
    examine_mem_data zmem addr "x" 4 5
      = .ok [("0x" ++ hexStr addr ++ ":\t",
              ["0x00000000\t", "0x00000000\t", "0x00000000\t", "0x00000000\t"]),
             ("0x" ++ hexStr (addr + 16) ++ ":\t", ["0x00000000\t"])] := by
  constructor <;> rfl

/-- `Except` bind on a success reduces to the continuation. -/
theorem except_bind_ok {ε α β : Type} (a : α) (f : α → Except ε β) :
    (Except.ok a >>= f) = f a := rfl

/-- The successor-step equation of `examine_rows`, in explicit bind
form. -/
theorem examine_rows_succ (addr sz : Nat) (mem_read : List (List Nat))
    (n line : Nat) (ft : String) :
    examine_rows addr sz mem_read (n + 1) line ft
      = (render_elems sz ft ((mem_read.drop (line * 4)).take 4) >>= fun p =>
          examine_rows addr sz mem_read n (line + 1) p.2 >>= fun rest =>
            Except.ok (("0x" ++ hexStr (addr + line * sz * 4) ++ ":\t", p.1) :: rest)) := rfl

/-- Reading `n` 4-byte elements from the all-zero memory yields `n` copies
of four zero bytes. -/
theorem read_elems_zmem (addr : Nat) :
    ∀ n off, read_elems zmem addr 4 off n
      = .ok (List.replicate n ([0, 0, 0, 0] : List Nat)) := by
  intro n
  induction n with
  | zero => intro off; rfl
  | succ k ih =>
    intro off
    have h0 : memReadBytes zmem (addr + off * 4) 4 = some [0, 0, 0, 0] := rfl
    simp only [read_elems, h0, ih]
    rfl

/-- Once the format kind has been mutated to `"b"`, every zero element is
rendered without padding, and the format kind stays `"b"`. -/
theorem render_elems_b (k : Nat) :
    render_elems 4 "b" (List.replicate k ([0, 0, 0, 0] : List Nat))
      = .ok (List.replicate k "0\t", "b") := by
  induction k with
  | zero => rfl
  | succ n ih =>
    rw [List.replicate_succ,
        show render_elems 4 "b" ([0, 0, 0, 0] :: List.replicate n ([0, 0, 0, 0] : List Nat))
          = (render_elems 4 "b" (List.replicate n [0, 0, 0, 0]) >>=
              fun p => .ok ("0\t" :: p.1, p.2)) from rfl,
        ih]
    rfl

/-- Formatting a chunk whose first element is formatted with `ft = "t"`:
the first element gets the `2*sz` zero padding, the `ft` variable is
overwritten to `"b"`, and all remaining elements render unpadded. -/
theorem render_elems_t_first (k : Nat) :
    render_elems 4 "t" ([0, 0, 0, 0] :: List.replicate k ([0, 0, 0, 0] : List Nat))
      = .ok ("00000000\t" :: List.replicate k "0\t", "b") := by
  rw [show render_elems 4 "t" ([0, 0, 0, 0] :: List.replicate k ([0, 0, 0, 0] : List Nat))
        = (render_elems 4 "b" (List.replicate k [0, 0, 0, 0]) >>=
            fun p => .ok ("00000000\t" :: p.1, p.2)) from rfl,
      render_elems_b k]
  rfl

/-- Row rendering over all-zero 4-byte elements with the format kind
already mutated to `"b"`: every remaining element renders as the unpadded
`"0\t"`. -/
theorem examine_rows_zrep (addr ct : Nat) :
    ∀ n line, ∃ rows,
      examine_rows addr 4 (List.replicate ct ([0, 0, 0, 0] : List Nat)) n line "b"
        = .ok rows ∧
      (rows.map Prod.snd).flatten = List.replicate (min (n * 4) (ct - line * 4)) "0\t" := by
  intro n
  induction n with
  | zero =>
    intro line
    exact ⟨[], rfl, by simp⟩
  | succ k ih =>
    intro line
    obtain ⟨rows', h1, h2⟩ := ih (line + 1)
    have hchunk : ((List.replicate ct ([0, 0, 0, 0] : List Nat)).drop (line * 4)).take 4
        = List.replicate (min 4 (ct - line * 4)) [0, 0, 0, 0] := by
      rw [List.drop_replicate, List.take_replicate]
    refine ⟨("0x" ++ hexStr (addr + line * 4 * 4) ++ ":\t",
             List.replicate (min 4 (ct - line * 4)) "0\t") :: rows', ?_, ?_⟩
    · simp only [examine_rows_succ, hchunk, render_elems_b, except_bind_ok, h1]
    · simp only [List.map_cons, List.flatten_cons, h2, ← List.replicate_add]
      congr 1
      omega

/-- C10: in `examine`'s data branch with format kind `"t"`, only the very
first element of the whole examined range is zero-padded to `2*sz` digits;
every later element — on the same row and on all later rows — prints
without padding, because line 50 overwrites the format-kind variable to
`"b"` while formatting the first element and the padding rule is
recomputed from the mutated variable for each element.  Over all-zero
memory with 4-byte elements, the flattened element strings are one
`"00000000"` followed by `ct - 1` bare `"0"`s. -/
theorem c10_binary_padding_mutation (addr ct : Nat) (hct : 1 ≤ ct) :
    fmt_elem "t" 4 0 = .ok ("00000000\t", "b") ∧
    fmt_elem "b" 4 0 = .ok ("0\t", "b") ∧
    ∃ rows, examine_mem_data zmem addr "t" 4 ct = .ok rows ∧
      (rows.map Prod.snd).flatten = "00000000\t" :: List.replicate (ct - 1) "0\t" := by
  refine ⟨rfl, rfl, ?_⟩
  have hread := read_elems_zmem addr ct 0
  by_cases hc : ct ≤ 4
  · -- one row: lines = 1
    obtain ⟨k, hk⟩ : ∃ k, min 4 ct = k + 1 := ⟨min 4 ct - 1, by omega⟩
    have hchunk : ((List.replicate ct ([0, 0, 0, 0] : List Nat)).drop (0 * 4)).take 4
        = [0, 0, 0, 0] :: List.replicate k [0, 0, 0, 0] := by
      rw [Nat.zero_mul, List.drop_zero, List.take_replicate, hk, List.replicate_succ]
    refine ⟨[("0x" ++ hexStr (addr + 0 * 4 * 4) ++ ":\t",
              "00000000\t" :: List.replicate k "0\t")], ?_, ?_⟩
    · have h1 : examine_mem_data zmem addr "t" 4 ct
          = examine_rows addr 4 (List.replicate ct [0, 0, 0, 0]) 1 0 "t" := by
        simp only [examine_mem_data, hread, except_bind_ok, if_pos hc]
      rw [h1, show (1 : Nat) = 0 + 1 from rfl, examine_rows_succ, hchunk,
          render_elems_t_first, except_bind_ok]
      rfl
    · have hkeq : k = ct - 1 := by omega
      simp [hkeq]
  · -- several rows: lines = ceil(ct/4)
    obtain ⟨n, hn⟩ : ∃ n, (ct + 3) / 4 = n + 1 := ⟨(ct + 3) / 4 - 1, by omega⟩
    have hchunk : ((List.replicate ct ([0, 0, 0, 0] : List Nat)).drop (0 * 4)).take 4
        = [0, 0, 0, 0] :: List.replicate 3 [0, 0, 0, 0] := by
      rw [Nat.zero_mul, List.drop_zero, List.take_replicate,
          Nat.min_eq_left (by omega : 4 ≤ ct)]
      rfl
    obtain ⟨rows', h1, h2⟩ := examine_rows_zrep addr ct n 1
    refine ⟨("0x" ++ hexStr (addr + 0 * 4 * 4) ++ ":\t",
             "00000000\t" :: List.replicate 3 "0\t") :: rows', ?_, ?_⟩
    · have h0 : examine_mem_data zmem addr "t" 4 ct
          = examine_rows addr 4 (List.replicate ct [0, 0, 0, 0]) (n + 1) 0 "t" := by
        simp only [examine_mem_data, hread, except_bind_ok, if_neg hc, hn]
      rw [h0, examine_rows_succ, hchunk, render_elems_t_first, except_bind_ok]
      simp only [h1, except_bind_ok]
    · simp only [List.map_cons, List.flatten_cons, h2, List.cons_append]
      rw [show List.replicate 3 "0\t" ++ List.replicate (min (n * 4) (ct - 1 * 4)) "0\t"
            = List.replicate (3 + min (n * 4) (ct - 1 * 4)) "0\t" from (List.replicate_add ..).symm,
          Nat.min_eq_right (by omega : ct - 1 * 4 ≤ n * 4),
          show 3 + (ct - 1 * 4) = ct - 1 by omega]

/-- Witness for `c10_binary_padding_mutation` at address 0 with six
elements (two rows of 4 and 2). -/
theorem c10_binary_padding_mutation_witness :
    fmt_elem "t" 4 0 = .ok ("00000000\t", "b") ∧
    fmt_elem "b" 4 0 = .ok ("0\t", "b") ∧
    ∃ rows, examine_mem_data zmem 0 "t" 4 6 = .ok rows ∧
      (rows.map Prod.snd).flatten = "00000000\t" :: List.replicate 5 "0\t" :=
  c10_binary_padding_mutation 0 6 (by decide)

/-- Embeds one line of `print_asm` (frontend.py lines 164–170):
`fmt = (ins.address, ins.mnemonic.ljust(6), ins.op_str)`; the line is
prefixed `"PC ==>  "` when the instruction's address equals the current
program counter, and a tab otherwise. -/
def print_asm_line (pc : Nat) (ins : Insn) : String :=
  if pc = ins.address then
    "PC ==>  0x" ++ hexStr ins.address ++ "\t" ++ ljust ins.mnemonic 6 ++ " " ++ ins.op_str
  else
    "\t0x" ++ hexStr ins.address ++ "\t" ++ ljust ins.mnemonic 6 ++ " " ++ ins.op_str

/-- Embeds `print_asm` (lines 164–170): one printed line per decoded
instruction. -/
def print_asm (pc : Nat) (instructions : List Insn) : List String :=
  instructions.map (print_asm_line pc)

/-- C7, counterexample: the mnemonic field uses Python `ljust(6)`, which
pads on the *right* (left-justifies).  For the instruction
`mov r0, r1` at the program counter the printed line is
`"PC ==>  0x0\tmov    r0, r1"`, which differs from the line the claim's
"left-padded to a fixed 6-character field" would produce
(`"PC ==>  0x0\t   mov r0, r1"`). -/
theorem c7_counterexample :
    print_asm 0 [⟨0, "mov", "r0, r1"⟩] = ["PC ==>  0x0\tmov    r0, r1"] ∧
    print_asm 0 [⟨0, "mov", "r0, r1"⟩] ≠ ["PC ==>  0x0\t   mov r0, r1"] := by
  constructor
  · rfl
  · decide

/-- C7 (amended): for every printed instruction, the line is prefixed with
the `PC ==>` marker exactly when its address equals the current program
counter and with a tab otherwise, and the mnemonic is left-*justified*
(padded on the right with spaces) to a minimum 6-character field: the
rendered mnemonic field starts with the mnemonic itself and has length
`max 6 (mnemonic length)`. -/
theorem c7_amended (pc : Nat) (ins : Insn) :
    (pc = ins.address →
      print_asm_line pc ins
        = "PC ==>  0x" ++ hexStr ins.address ++ "\t" ++ ljust ins.mnemonic 6 ++ " " ++ ins.op_str) ∧
    (pc ≠ ins.address →
      print_asm_line pc ins
        = "\t0x" ++ hexStr ins.address ++ "\t" ++ ljust ins.mnemonic 6 ++ " " ++ ins.op_str) ∧
    (ljust ins.mnemonic 6).data
      = ins.mnemonic.data ++ List.replicate (6 - ins.mnemonic.length) ' ' ∧
    (ljust ins.mnemonic 6).length = max ins.mnemonic.length 6 := by
  refine ⟨fun h => by rw [print_asm_line, if_pos h], fun h => by rw [print_asm_line, if_neg h],
          ?_, ?_⟩
  · rw [ljust, String.data_append]
  · rw [ljust, String.length_append]
    have hlen : (String.mk (List.replicate (6 - ins.mnemonic.length) ' ')).length
        = 6 - ins.mnemonic.length := by
      show (List.replicate (6 - ins.mnemonic.length) ' ').length = _
      rw [List.length_replicate]
    rw [hlen]
    omega

/-- Witness for `c7_amended`: `nop` at address 16 with the program counter
elsewhere. -/
theorem c7_amended_witness :
    ((16 : Nat) = 16 →
      print_asm_line 16 ⟨16, "nop", ""⟩
        = "PC ==>  0x" ++ hexStr 16 ++ "\t" ++ ljust "nop" 6 ++ " " ++ "") ∧
    ((16 : Nat) ≠ 16 →
      print_asm_line 16 ⟨16, "nop", ""⟩
        = "\t0x" ++ hexStr 16 ++ "\t" ++ ljust "nop" 6 ++ " " ++ "") ∧
    (ljust "nop" 6).data = "nop".data ++ List.replicate (6 - "nop".length) ' ' ∧
    (ljust "nop" 6).length = max "nop".length 6 :=
  c7_amended 16 ⟨16, "nop", ""⟩

/-- Embeds the body of `context_asm` (frontend.py lines 176–196): the
lookback window is probed with `_try_read` at `address-0x10` and simply
omitted when the probe fails; the current instruction is read with a
*direct* `ql.mem.read(address, size)` (a failure raises out of the body);
the lookahead window is probed with `_try_read` at `address+4` and
omitted on failure.  `disasmF bs base` models `md.disasm(bs, base)` of
the external disassembler, `pc` is `ql.reg.arch_pc`. -/
def context_asm_body (m : Mem) (disasmF : List Nat → Nat → List Insn)
    (pc address size : Nat) : List String × Option Unit :=
  let pre_lines :=
    match try_read m (address - 16) 16 with
    | some pre_tmp => print_asm pc (disasmF pre_tmp (address - 16))
    | none => []
  match memReadBytes m address size with
  | none => (pre_lines, some ())
  | some tmp =>
    let cur_lines := print_asm pc (disasmF tmp address)
    let pos_lines :=
      match try_read m (address + 4) 16 with
      | some pos_tmp => print_asm pc (disasmF pos_tmp (address + 4))
      | none => []
    (pre_lines ++ cur_lines ++ pos_lines, none)

/-- Embeds `context_asm` (lines 173–196): the body wrapped in the
`[Code]` section frame. -/
def context_asm (width : Nat) (m : Mem) (disasmF : List Nat → Nat → List Insn)
    (pc address size : Nat) : List String × Option Unit :=
  context_printer width "[Code]" '=' (context_asm_body m disasmF pc address size)

/-- C4: a failed 16-byte probe of the lookback window at `address-16` (or
of the lookahead window at `address+4`) does not fail `context_asm`: the
missing window is omitted, the remaining windows are still disassembled
and printed, no exception escapes, and the output is framed by exactly
one opening rule line (the first line) and one closing rule line of
terminal width (the last line). -/
theorem c4_code_window_probe_miss (width : Nat) (m : Mem)
    (disasmF : List Nat → Nat → List Insn) (pc address size : Nat) :
    (∀ tmp pos_tmp, try_read m (address - 16) 16 = none →
      memReadBytes m address size = some tmp →
      try_read m (address + 4) 16 = some pos_tmp →
      context_asm width m disasmF pc address size
        = (hrule width "[Code]" '=' ::
            ((print_asm pc (disasmF tmp address)
               ++ print_asm pc (disasmF pos_tmp (address + 4))) ++ [crule width '=']),
           none)) ∧
    (∀ pre_tmp tmp, try_read m (address - 16) 16 = some pre_tmp →
      memReadBytes m address size = some tmp →
      try_read m (address + 4) 16 = none →
      context_asm width m disasmF pc address size
        = (hrule width "[Code]" '=' ::
            ((print_asm pc (disasmF pre_tmp (address - 16))
               ++ print_asm pc (disasmF tmp address)) ++ [crule width '=']),
           none)) := by
  constructor
  · intro tmp pos_tmp h1 h2 h3
    simp only [context_asm, context_asm_body, h1, h2, h3, context_printer, List.nil_append]
  · intro pre_tmp tmp h1 h2 h3
    simp only [context_asm, context_asm_body, h1, h2, h3, context_printer, List.append_nil]

/-- Memory for the C4 witness: bytes 100–119 mapped, everything else (in
particular the lookback window at 84) unmapped. -/
def c4mem : Mem := fun a => if 100 ≤ a ∧ a < 120 then some 0 else none

/-- Disassembler stub for the C4 witness: one `nop` at the window base. -/
def c4dis : List Nat → Nat → List Insn := fun _ base => [⟨base, "nop", ""⟩]

/-- Witness for `c4_code_window_probe_miss`: at address 100 the lookback
probe fails, the current and lookahead windows are printed, and the frame
is intact. -/
theorem c4_code_window_probe_miss_witness :
    context_asm 20 c4mem c4dis 100 100 4
      = (hrule 20 "[Code]" '=' ::
          ((print_asm 100 (c4dis [0, 0, 0, 0] 100)
             ++ print_asm 100 (c4dis (List.replicate 16 0) 104)) ++ [crule 20 '=']),
         none) :=
  (c4_code_window_probe_miss 20 c4mem c4dis 100 100 4).1 [0, 0, 0, 0]
    (List.replicate 16 0) rfl rfl rfl

/-- A Python `dict` of register name to value, in insertion order
(Python dicts preserve insertion order; keys are unique). -/
abbrev RegMap := List (String × Nat)

/-- Python `d.pop(k)`: the value of the entry with key `k` and the dict
without that entry; `none` models the `KeyError` on a missing key. -/
def dictPop (d : RegMap) (k : String) : Option (Nat × RegMap) :=
  match d.lookup k with
  | none => none
  | some v => some (v, d.eraseP (fun p => p.1 == k))

/-- Python `d.update({k: v})` / `d[k] = v`: replace the value in place
when the key exists, else append the new entry at the end (dict insertion
order). -/
def dictSet (d : RegMap) (k : String) (v : Nat) : RegMap :=
  if d.any (fun p => p.1 == k) then d.map (fun p => if p.1 == k then (k, v) else p)
  else d ++ [(k, v)]

/-- `copy.deepcopy` on a register dict: a structurally fresh copy with
the same entries. -/
def deepcopy (d : RegMap) : RegMap := d.map (fun p => p)

/-- A deep copy holds the same entries as the original. -/
theorem deepcopy_eq (d : RegMap) : deepcopy d = d := List.map_id' d

/-- The architectures `context_reg` dispatches on (`ql.archtype`). -/
inductive Arch
  | MIPS
  | ARM
  | ARM_THUMB
deriving DecidableEq

/-- Whether the architecture takes the MIPS branch of `context_reg`. -/
def isMipsArch : Arch → Bool
  | .MIPS => true
  | _ => false

/-- The alias renaming `context_reg` applies to a register dict: MIPS
`s8 → fp` (line 92); ARM/ARM_THUMB `r10 → sl`, `r11 → fp`, `r12 → ip`
(lines 118–120).  Each step is `d.update({alias: d.pop(raw)})`; a missing
raw name is a `KeyError` (`none`). -/
def rename (arch : Arch) (d : RegMap) : Option RegMap :=
  match arch with
  | .MIPS => (dictPop d "s8").map (fun p => dictSet p.2 "fp" p.1)
  | .ARM | .ARM_THUMB => do
    let p10 ← dictPop d "r10"
    let d1 := dictSet p10.2 "sl" p10.1
    let p11 ← dictPop d1 "r11"
    let d2 := dictSet p11.2 "fp" p11.1
    let p12 ← dictPop d2 "r12"
    pure (dictSet p12.2 "ip" p12.1)

/-- Modelled from the spec: the ANSI styling constants of qdb's `const`
module (`color.DARKCYAN` … `color.BOLD`), which is not part of this
source file; the spec fixes only that these are process-wide color and
emphasis escape markers, so they are given here as the usual ANSI escape
strings (their exact values are irrelevant to the claims). -/
def colorDARKCYAN : String := "\x1b[36m"

def colorBLUE : String := "\x1b[34m"

def colorRED : String := "\x1b[91m"

def colorYELLOW : String := "\x1b[93m"

def colorGREEN : String := "\x1b[92m"

def colorPURPLE : String := "\x1b[95m"

def colorCYAN : String := "\x1b[96m"

def colorWHITE : String := "\x1b[97m"

def colorEND : String := "\x1b[0m"

def colorUNDERLINE : String := "\x1b[4m"

def colorBOLD : String := "\x1b[1m"

/-- The color tuple `_colors` of `context_reg` (line 88): exactly 8
entries. -/
def color_palette : List String :=
  [colorDARKCYAN, colorBLUE, colorRED, colorYELLOW,
   colorGREEN, colorPURPLE, colorCYAN, colorWHITE]

/-- Embeds the diff computation of `context_reg` (lines 97 / 127):
`[k for k in _cur_regs if _cur_regs[k] != _saved_states[k]]`, iterating
the renamed current dict in order; a key missing from the renamed saved
dict is a `KeyError` (`.error`). -/
def computeDiff (savedMap : RegMap) : RegMap → Except Unit (List String)
  | [] => .ok []
  | p :: rest => do
    let v ← match savedMap.lookup p.1 with
            | some v => Except.ok v
            | none => Except.error ()
    let d ← computeDiff savedMap rest
    .ok (if p.2 ≠ v then p.1 :: d else d)

/-- Embeds one register entry of the render loop (lines 103–112 for MIPS,
133–142 for ARM): the color from `_colors[(idx-1) // 4]` (an IndexError —
`.error` — when the index runs past the 8-entry tuple), the
`name: 0x{:08x}` cell with the reset marker and trailing tab, the
underline+bold emphasis prepended when the diff list is truthy and
contains the name, and a newline appended after every 4th entry (for
MIPS, except entry 32). -/
def reg_line (isMips : Bool) (diff : Option (List String)) (idx : Nat)
    (r : String) (v : Nat) : Except Unit String :=
  match color_palette.get? ((idx - 1) / 4) with
  | none => .error ()
  | some c =>
    let line := c ++ r ++ ": 0x" ++ hexPad 8 v ++ " " ++ colorEND ++ "\t"
    let line := if (match diff with
                    | some d => !d.isEmpty && d.contains r
                    | none => false)
                then colorUNDERLINE ++ colorBOLD ++ line else line
    .ok (if idx % 4 = 0 ∧ (isMips = true → idx ≠ 32) then line ++ "\n" else line)

/-- The register render loop `for idx, r in enumerate(_cur_regs, 1)`,
starting at index `idx`. -/
def reg_lines_from (isMips : Bool) (diff : Option (List String)) :
    Nat → RegMap → Except Unit (List String)
  | _, [] => .ok []
  | idx, p :: rest => do
    let line ← reg_line isMips diff idx p.1 p.2
    let restLines ← reg_lines_from isMips diff (idx + 1) rest
    .ok (line :: restLines)

/-- All rendered register entries, indexed from 1 (`enumerate(_, 1)`). -/
def reg_lines (isMips : Bool) (diff : Option (List String)) (cur : RegMap) :
    Except Unit (List String) :=
  reg_lines_from isMips diff 1 cur

/-- Embeds the `[Registers]` section body of `context_reg` (lines
86–145): apply the per-architecture alias renaming to the fetched
register dict `cur` (the result of the external `dump_regs`) and — when a
previous snapshot is supplied — to a deep copy of it, compute the diff
list, render the entries, and print them as one string.  For
ARM/ARM_THUMB the CPSR flags line follows, passed in pre-rendered as
`flags` since `get_arm_flags` lives outside this source file.  Renaming
`KeyError`s, diff `KeyError`s and palette IndexErrors escape as
`.error`. -/
def reg_body (arch : Arch) (cur : RegMap) (saved : Option RegMap) (flags : String) :
    Except Unit (List String) := do
  let cur2 ← match rename arch cur with
             | some d => Except.ok d
             | none => Except.error ()
  let diff ← match saved with
             | some s =>
               match rename arch (deepcopy s) with
               | some s2 => do
                 let d ← computeDiff s2 cur2
                 Except.ok (some d)
               | none => Except.error ()
             | none => Except.ok none
  let entries ← reg_lines (isMipsArch arch) diff cur2
  match arch with
  | .MIPS => .ok [String.join entries]
  | .ARM | .ARM_THUMB => .ok [String.join entries, colorGREEN ++ flags ++ colorEND]

/-- When every current entry's value matches its saved value, the diff
list comes out empty. -/
theorem computeDiff_nil (savedMap : RegMap) :
    ∀ l : RegMap, (∀ p ∈ l, savedMap.lookup p.1 = some p.2) →
      computeDiff savedMap l = .ok [] := by
  intro l
  induction l with
  | nil => intro _; rfl
  | cons p rest ih =>
    intro h
    have hp : savedMap.lookup p.1 = some p.2 := h p (List.mem_cons_self p rest)
    have ht : computeDiff savedMap rest = .ok [] :=
      ih fun q hq => h q (List.mem_cons_of_mem p hq)
    simp only [computeDiff, hp, ht, except_bind_ok]
    simp

/-- A single entry renders identically under an empty diff list and no
diff at all: the emphasis condition `_diff and r in _diff` is falsy in
both cases. -/
theorem reg_line_empty_diff (isMips : Bool) (idx : Nat) (r : String) (v : Nat) :
    reg_line isMips (some []) idx r v = reg_line isMips none idx r v := rfl

/-- The whole entry loop renders identically under an empty diff list and
no diff at all. -/
theorem reg_lines_from_empty_diff (isMips : Bool) :
    ∀ (l : RegMap) (idx : Nat),
      reg_lines_from isMips (some []) idx l = reg_lines_from isMips none idx l := by
  intro l
  induction l with
  | nil => intro idx; rfl
  | cons p rest ih =>
    intro idx
    simp only [reg_lines_from, reg_line_empty_diff, ih]

/-- C5: for every architecture handled by `context_reg` (MIPS, ARM,
ARM_THUMB), if a previous snapshot is supplied and — after the alias
renaming has been applied to the current registers and to the (deep copy
of the) snapshot — every renamed register's current value equals its
saved value, then the computed diff list is empty and the rendered
`[Registers]` body equals the no-snapshot rendering: no entry carries the
underline+bold emphasis markers. -/
theorem c5_identity_diff_empty (arch : Arch) (cur s : RegMap) (flags : String)
    (cur2 s2 : RegMap)
    (h1 : rename arch cur = some cur2)
    (h2 : rename arch (deepcopy s) = some s2)
    (heq : ∀ p ∈ cur2, s2.lookup p.1 = some p.2) :
    computeDiff s2 cur2 = .ok [] ∧
    reg_body arch cur (some s) flags = reg_body arch cur none flags := by
  have hd : computeDiff s2 cur2 = .ok [] := computeDiff_nil s2 cur2 heq
  refine ⟨hd, ?_⟩
  simp only [reg_body, h1, h2, hd, except_bind_ok, reg_lines,
             reg_lines_from_empty_diff]

/-- Witness for `c5_identity_diff_empty`: MIPS with current registers
`{s8: 7, a0: 3}` and an identical snapshot. -/
theorem c5_identity_diff_empty_witness :
    computeDiff [("a0", 3), ("fp", 7)] [("a0", 3), ("fp", 7)] = .ok [] ∧
    reg_body Arch.MIPS [("s8", 7), ("a0", 3)] (some [("s8", 7), ("a0", 3)]) ""
      = reg_body Arch.MIPS [("s8", 7), ("a0", 3)] none "" :=
  c5_identity_diff_empty Arch.MIPS [("s8", 7), ("a0", 3)] [("s8", 7), ("a0", 3)] ""
    [("a0", 3), ("fp", 7)] [("a0", 3), ("fp", 7)] (by rfl) (by rfl) (by decide)

/-- From entry 33 on, the palette index `(idx-1) // 4` runs past the
8-entry color tuple and the entry render raises an IndexError. -/
theorem reg_line_error_of_33 (isMips : Bool) (diff : Option (List String))
    (idx : Nat) (r : String) (v : Nat) (h : 33 ≤ idx) :
    reg_line isMips diff idx r v = .error () := by
  have hidx : color_palette.get? ((idx - 1) / 4) = none := by
    refine List.get?_eq_none.mpr ?_
    rw [show color_palette.length = 8 from rfl]
    have h32 : 32 ≤ idx - 1 := by omega
    calc 8 = 8 * 4 / 4 := by norm_num
    _ ≤ (idx - 1) / 4 := Nat.div_le_div_right (by omega)
  simp only [reg_line.eq_def, hidx]

/-- Entries with index at most 32 always render successfully. -/
theorem reg_line_ok_of_le32 (isMips : Bool) (diff : Option (List String))
    (idx : Nat) (r : String) (v : Nat) (h : idx ≤ 32) :
    ∃ s, reg_line isMips diff idx r v = .ok s := by
  have hlt : (idx - 1) / 4 < color_palette.length := by
    rw [show color_palette.length = 8 from rfl]
    have : idx - 1 ≤ 31 := by omega
    calc (idx - 1) / 4 ≤ 31 / 4 := Nat.div_le_div_right this
    _ < 8 := by norm_num
  obtain ⟨c, hc⟩ : ∃ c, color_palette.get? ((idx - 1) / 4) = some c :=
    ⟨color_palette.get ⟨(idx - 1) / 4, hlt⟩, List.get?_eq_get hlt⟩
  cases hv : reg_line isMips diff idx r v with
  | error e =>
    exfalso
    simp only [reg_line.eq_def, hc] at hv
    exact Except.noConfusion hv
  | ok s => exact ⟨s, rfl⟩

/-- A register dict whose tail reaches past entry 32 makes the entry loop
raise. -/
theorem reg_lines_from_error (isMips : Bool) (diff : Option (List String)) :
    ∀ (l : RegMap) (idx : Nat), l ≠ [] → 34 ≤ idx + l.length →
      reg_lines_from isMips diff idx l = .error () := by
  intro l
  induction l with
  | nil => intro idx hne _; exact absurd rfl hne
  | cons p rest ih =>
    intro idx _ hlen
    by_cases h33 : 33 ≤ idx
    · simp only [reg_lines_from, reg_line_error_of_33 isMips diff idx p.1 p.2 h33]
      rfl
    · obtain ⟨s, hs⟩ := reg_line_ok_of_le32 isMips diff idx p.1 p.2 (by omega)
      have hrest : rest ≠ [] := by
        intro hnil
        rw [hnil] at hlen
        simp at hlen
        omega
      have ht : reg_lines_from isMips diff (idx + 1) rest = .error () := by
        refine ih (idx + 1) hrest ?_
        simp only [List.length_cons] at hlen
        omega
      simp only [reg_lines_from, hs, ht, except_bind_ok]
      rfl

/-- C9 (implicit): the color index `(idx-1) // 4` of `context_reg` is not
reduced modulo the palette size, so the 8-color palette does not cycle:
the tuple has exactly 8 entries, every entry index from 33 on has no
valid color, any renamed register dict with more than 32 entries makes
the entry render loop fail with an IndexError, and consequently
`context_reg`'s register body (without a snapshot) fails on such a
dict. -/
theorem c9_palette_overflow :
    color_palette.length = 8 ∧
    (∀ idx, 33 ≤ idx → color_palette.get? ((idx - 1) / 4) = none) ∧
    (∀ (isMips : Bool) (diff : Option (List String)) (cur2 : RegMap),
      32 < cur2.length → reg_lines isMips diff cur2 = .error ()) ∧
    (∀ (arch : Arch) (cur cur2 : RegMap) (flags : String),
      rename arch cur = some cur2 → 32 < cur2.length →
      reg_body arch cur none flags = .error ()) := by
  have hlines : ∀ (isMips : Bool) (diff : Option (List String)) (cur2 : RegMap),
      32 < cur2.length → reg_lines isMips diff cur2 = .error () := by
    intro isMips diff cur2 hlen
    refine reg_lines_from_error isMips diff cur2 1 ?_ (by omega)
    intro hnil
    rw [hnil] at hlen
    simp at hlen
  refine ⟨rfl, ?_, hlines, ?_⟩
  · intro idx h
    refine List.get?_eq_none.mpr ?_
    rw [show color_palette.length = 8 from rfl]
    calc 8 = 8 * 4 / 4 := by norm_num
    _ ≤ (idx - 1) / 4 := Nat.div_le_div_right (by omega)
  · intro arch cur cur2 flags h1 hlen
    simp only [reg_body, h1, except_bind_ok, hlines (isMipsArch arch) none cur2 hlen]
    rfl

/-- Witness for `c9_palette_overflow`: a 33-entry renamed register dict
fails to render. -/
theorem c9_palette_overflow_witness :
    reg_lines true none (List.replicate 33 ("r", 0)) = .error () :=
  c9_palette_overflow.2.2.1 true none (List.replicate 33 ("r", 0)) (by simp)

/-- A heap of dict objects: Python variables hold references (indices)
into the store, so `copy.deepcopy` allocates a fresh object while method
calls (`pop`, `update`) mutate the referenced object in place. -/
abbrev Store := List RegMap

/-- Dereference a dict variable. -/
def storeGet (st : Store) (i : Nat) : RegMap := (st.get? i).getD []

/-- Mutate the dict object at index `i`. -/
def storeSet (st : Store) (i : Nat) (d : RegMap) : Store := st.set i d

/-- `copy.deepcopy`: allocate a fresh object with the same entries; the
new reference is the previous store length. -/
def store_deepcopy (st : Store) (i : Nat) : Store × Nat :=
  (st ++ [deepcopy (storeGet st i)], st.length)

/-- `d.pop(k)` through a reference: mutates the object at `i`; `none`
models the `KeyError`. -/
def store_pop (st : Store) (i : Nat) (k : String) : Option (Nat × Store) :=
  (dictPop (storeGet st i) k).map (fun p => (p.1, storeSet st i p.2))

/-- `d.update({k: v})` through a reference. -/
def store_update (st : Store) (i : Nat) (k : String) (v : Nat) : Store :=
  storeSet st i (dictSet (storeGet st i) k v)

/-- Embeds lines 95–96 of `context_reg` (MIPS):
`_saved_states = copy.deepcopy(saved_states)` followed by
`_saved_states.update({"fp": _saved_states.pop("s8")})`, acting on the
object store; returns the reference to the renamed copy and the final
store. -/
def mips_saved_rename (st : Store) (savedRef : Nat) : Option (Nat × Store) := do
  let (st1, copyRef) := store_deepcopy st savedRef
  let p ← store_pop st1 copyRef "s8"
  let st2 := store_update p.2 copyRef "fp" p.1
  pure (copyRef, st2)

/-- Embeds lines 123–126 of `context_reg` (ARM/ARM_THUMB):
`_saved_states = copy.deepcopy(saved_states)` followed by the three
`update(pop)` renamings `r10 → sl`, `r11 → fp`, `r12 → ip`. -/
def arm_saved_rename (st : Store) (savedRef : Nat) : Option (Nat × Store) := do
  let (st1, copyRef) := store_deepcopy st savedRef
  let p10 ← store_pop st1 copyRef "r10"
  let st2 := store_update p10.2 copyRef "sl" p10.1
  let p11 ← store_pop st2 copyRef "r11"
  let st3 := store_update p11.2 copyRef "fp" p11.1
  let p12 ← store_pop st3 copyRef "r12"
  pure (copyRef, store_update p12.2 copyRef "ip" p12.1)

/-- C8: `context_reg` never mutates the caller-supplied previous
snapshot.  With the snapshot at reference 0, the renaming sequence of
both architecture branches acts only on the deep copy (reference 1): the
final store still holds the snapshot at reference 0 with exactly the
name-to-value entries it held before the call — raw, un-renamed names
included — while the renamed copy lives at reference 1. -/
theorem c8_snapshot_not_mutated :
    (∀ (saved : RegMap) (v : Nat) (d' : RegMap),
      dictPop saved "s8" = some (v, d') →
      ∃ st', mips_saved_rename [saved] 0 = some (1, st') ∧
        storeGet st' 0 = saved ∧ storeGet st' 1 = dictSet d' "fp" v) ∧
    (∀ (saved : RegMap) (v10 : Nat) (d10 : RegMap) (v11 : Nat) (d11 : RegMap)
       (v12 : Nat) (d12 : RegMap),
      dictPop saved "r10" = some (v10, d10) →
      dictPop (dictSet d10 "sl" v10) "r11" = some (v11, d11) →
      dictPop (dictSet d11 "fp" v11) "r12" = some (v12, d12) →
      ∃ st', arm_saved_rename [saved] 0 = some (1, st') ∧
        storeGet st' 0 = saved ∧ storeGet st' 1 = dictSet d12 "ip" v12) := by
  constructor
  · intro saved v d' h
    refine ⟨[saved, dictSet d' "fp" v], ?_, rfl, rfl⟩
    simp [mips_saved_rename, store_deepcopy, store_pop, store_update,
          storeGet, storeSet, deepcopy_eq, h]
  · intro saved v10 d10 v11 d11 v12 d12 h10 h11 h12
    refine ⟨[saved, dictSet d12 "ip" v12], ?_, rfl, rfl⟩
    simp [arm_saved_rename, store_deepcopy, store_pop, store_update,
          storeGet, storeSet, deepcopy_eq, h10, h11, h12]

/-- Witness for `c8_snapshot_not_mutated`: a one-entry MIPS snapshot
`{s8: 5}`. -/
theorem c8_snapshot_not_mutated_witness :
    ∃ st', mips_saved_rename [[("s8", 5)]] 0 = some (1, st') ∧
      storeGet st' 0 = [("s8", 5)] ∧ storeGet st' 1 = dictSet [] "fp" 5 :=
  c8_snapshot_not_mutated.1 [("s8", 5)] 5 [] (by rfl)

/-- The address of stack slot `idx` (frontend.py line 151):
`ql.reg.arch_sp + idx * 4` — a fixed 4-byte stride, regardless of the
architecture's pointer width. -/
def stack_slot_addr (sp idx : Nat) : Nat := sp + idx * 4

/-- Embeds one iteration of the `[Stack]` dump loop (lines 150–161): read
`ql.archbit // 8` bytes at the slot address with a direct `ql.mem.read`
(a fault raises out of the loop), render the
`$sp+0x{off:02x}|[0x{addr:08x}]=> 0x{val:08x}` cell, then best-effort
re-read 4 bytes at the *same* address and, since a successful read is a
non-empty (truthy) byte string, append the `=> 0x{deref:08x}` print.  (On
a failed re-read the cell is left as an unterminated fragment — the
`print(..., end="")` is never followed by a newline — which with this
byte-level memory can only happen when the first read also fails.) -/
def stack_slot_line (m : Mem) (sp archbit idx : Nat) : Except Unit String :=
  match memReadBytes m (stack_slot_addr sp idx) (archbit / 8) with
  | none => .error ()
  | some val =>
    let cell := "$sp+0x" ++ hexPad 2 (idx * 4) ++ "|[0x" ++ hexPad 8 (stack_slot_addr sp idx)
                  ++ "]=> 0x" ++ hexPad 8 (unpackLE val)
    match try_read m (stack_slot_addr sp idx) 4 with
    | some deref => .ok (cell ++ " => 0x" ++ hexPad 8 (unpackLE deref))
    | none => .ok cell

/-- Embeds the `[Stack]` loop of `context_reg` (lines 150–161): eight
slots printed in order; a raising read aborts the loop with the earlier
lines already printed. -/
def stack_body (m : Mem) (sp archbit : Nat) : List String × Option Unit :=
  (List.range 8).foldl
    (fun acc idx =>
      match acc.2 with
      | some _ => acc
      | none =>
        match stack_slot_line m sp archbit idx with
        | .ok s => (acc.1 ++ [s], none)
        | .error _ => (acc.1, some ()))
    ([], none)

/-- Embeds the `[Stack]` section of `context_reg` (line 148): the stack
body in its own frame with rule character `'-'`. -/
def context_stack (width : Nat) (m : Mem) (sp archbit : Nat) : List String × Option Unit :=
  context_printer width "[Stack]" '-' (stack_body m sp archbit)

/-- C3, counterexample: the stack loop advances by a hard-coded 4 bytes
per slot (`_addr = ql.reg.arch_sp + idx * 4`), not by the pointer width.
On a 64-bit architecture (pointer width `64 / 8 = 8` bytes) with the
stack pointer at 0, slot 1 is printed at address 4 — visible in the
printed line — whereas the claim's "stack-pointer plus i times the
pointer width" requires address 8.  (Consecutive slots also overlap: each
reads 8 bytes but starts only 4 bytes further.) -/
theorem c3_counterexample :
    (stack_body zmem 0 64).1.get? 1
      = some "$sp+0x04|[0x00000004]=> 0x00000000 => 0x00000000" ∧
    stack_slot_addr 0 1 = 4 ∧
    (0 + 1 * (64 / 8) : Nat) = 8 ∧
    stack_slot_addr 0 1 ≠ 0 + 1 * (64 / 8) := by
  refine ⟨rfl, rfl, rfl, by decide⟩

/-- C3 (amended): the stack dump prints 8 slots at a fixed 4-byte stride
from the current stack pointer — slot `i` at `sp + i*4` — each showing
its byte offset `i*4`, its address, and the `archbit/8`-byte value read
there (plus the 4-byte re-read appended after `=>`).  The printed slots
are therefore consecutive pointer-width slots exactly when the pointer
width is 4 bytes (a 32-bit architecture), where `sp + i*4 =
sp + i*(archbit/8)`. -/
theorem c3_amended (f : Nat → Nat) (sp idx : Nat) (h : idx < 8) :
    (stack_body (fun a => some (f a)) sp 32).1.get? idx
      = some ("$sp+0x" ++ hexPad 2 (idx * 4) ++ "|[0x" ++ hexPad 8 (stack_slot_addr sp idx)
              ++ "]=> 0x"
              ++ hexPad 8 (unpackLE [f (stack_slot_addr sp idx),
                                     f (stack_slot_addr sp idx + 1),
                                     f (stack_slot_addr sp idx + 2),
                                     f (stack_slot_addr sp idx + 3)])
              ++ " => 0x"
              ++ hexPad 8 (unpackLE [f (stack_slot_addr sp idx),
                                     f (stack_slot_addr sp idx + 1),
                                     f (stack_slot_addr sp idx + 2),
                                     f (stack_slot_addr sp idx + 3)])) ∧
    stack_slot_addr sp idx = sp + idx * (32 / 8) := by
  interval_cases idx <;> exact ⟨rfl, rfl⟩

/-- Witness for `c3_amended`: slot 1 over the all-zero memory with the
stack pointer at 0 on a 32-bit architecture. -/
theorem c3_amended_witness :
    (stack_body (fun a => some ((fun _ => (0 : Nat)) a)) 0 32).1.get? 1
      = some ("$sp+0x" ++ hexPad 2 (1 * 4) ++ "|[0x" ++ hexPad 8 (stack_slot_addr 0 1)
              ++ "]=> 0x" ++ hexPad 8 (unpackLE [0, 0, 0, 0])
              ++ " => 0x" ++ hexPad 8 (unpackLE [0, 0, 0, 0])) ∧
    stack_slot_addr 0 1 = 0 + 1 * (32 / 8) :=
  c3_amended (fun _ => 0) 0 1 (by decide)

/-- Embeds `context_reg` as a whole (lines 81–161): the `[Registers]`
section (whose body prints nothing before its single `print` call, so an
exception leaves the section output empty) followed — only when no
exception escaped, since the `@contextmanager` re-raises — by the
`[Stack]` section. -/
def context_reg (width : Nat) (arch : Arch) (cur : RegMap) (saved : Option RegMap)
    (flags : String) (m : Mem) (sp archbit : Nat) : List String × Option Unit :=
  let regSection := context_printer width "[Registers]" '='
    (match reg_body arch cur saved flags with
     | .ok out => (out, none)
     | .error _ => ([], some ()))
  match regSection.2 with
  | some _ => regSection
  | none =>
    let stackSection := context_stack width m sp archbit
    (regSection.1 ++ stackSection.1, stackSection.2)
